import Mathlib

/-!
Verification of the money-monitor bank-statement ingestion core.

This file gives a shallow embedding of `src/units/date.rs`, `src/units/amount.rs`
and `src/import.rs`, and proves (or refutes) the specification claims about them.

Modelling conventions:
* Rust machine integers (`u8`, `u16`, `u32`) become `Nat`; all involved operations
  (comparisons, `%`, decimal rendering, decimal parsing with an upper bound)
  agree with the Rust operations on the in-range values, and no operation here
  can overflow a `Nat`.
* Rust `f64` becomes the exact-value type `F64` below: a finite rational payload
  plus the special values `inf`, `negInf`, `nan`.  The claims under scrutiny
  never depend on binary rounding, only on parse success/failure, on the
  finite/non-finite distinction, and on equality of values parsed from the same
  decimal text, all of which the exact model reproduces.
* A Rust byte source (`impl Read`) becomes a `String` (the inputs of every claim
  are valid UTF-8; the csv reader drops invalid-UTF-8 records as errors, which
  the `String` model never produces).
* The third-party `csv` crate (an external collaborator per the spec) is
  modelled by `csvRawRecords`/`csvIntoRecords` below with its default
  configuration as used by `from_csv`: double-quote quoting with doubled-quote
  escapes, `\n`/`\r`/`\r\n` record terminators, empty lines ignored,
  `has_headers = true` (the first record is consumed as a header and never
  yielded), and non-flexible length checking (a record whose field count
  differs from the header's is an error, removed by `filter_map(Result::ok)`).
-/

namespace MoneyMonitor

/-! ## Basic utilities shared by the embedded functions -/

/-- Byte length of a character list, matching Rust's `str::len` (UTF-8 bytes). -/
def utf8Len (cs : List Char) : Nat :=
  (cs.map Char.utf8Size).sum

/-- Splits a character list on a separator character, matching Rust's
`str::split(sep)`: the empty string yields one empty field, adjacent
separators yield empty fields. -/
def splitChar (sep : Char) : List Char → List (List Char)
  | [] => [[]]
  | c :: rest =>
    if c = sep then [] :: splitChar sep rest
    else
      match splitChar sep rest with
      | [] => [[c]]
      | f :: fs => (c :: f) :: fs

/-- Decimal value of a digit list (most significant first). -/
def digitsVal (ds : List Char) : Nat :=
  ds.foldl (fun a c => a * 10 + (c.toNat - 48)) 0

/-- Rust's `str::parse::<uN>()`: an optional leading `'+'`, then one or more
decimal digits, rejecting overflow past `maxVal` (the type's maximum). -/
def parseUnsigned (maxVal : Nat) (cs : List Char) : Option Nat :=
  let ds := match cs with
    | '+' :: r => r
    | r => r
  if ds = [] then none
  else if ds.all Char.isDigit then
    let v := digitsVal ds
    if v ≤ maxVal then some v else none
  else none

/-- `str::parse::<u8>()`. -/
def parseU8 (cs : List Char) : Option Nat := parseUnsigned 255 cs

/-- `str::parse::<u16>()`. -/
def parseU16 (cs : List Char) : Option Nat := parseUnsigned 65535 cs

/-- `str::parse::<u32>()` on a string, as used for the account number. -/
def parseU32 (s : String) : Option Nat := parseUnsigned 4294967295 s.data

/-- `Iterator::collect::<Option<Vec<_>>>()`: succeeds with the list of payloads
iff every element is `some`. -/
def collectOption {α : Type} : List (Option α) → Option (List α)
  | [] => some []
  | none :: _ => none
  | some a :: rest => (collectOption rest).map (a :: ·)

/-! ## The `f64` value model and Rust float parsing -/

/-- Powers of ten. -/
def pow10 : Nat → Int
  | 0 => 1
  | k + 1 => 10 * pow10 k

/-- Canonical form of the decimal rational `m / 10 ^ k`: divides out factors
of ten so that equal values get equal representations (every value Rust's
float grammar denotes is such a decimal rational). -/
def canonDec (m : Int) : Nat → Int × Nat
  | 0 => (m, 0)
  | k + 1 => if Int.emod m 10 = 0 then canonDec (Int.ediv m 10) k else (m, k + 1)

/-- Exact-value model of Rust `f64` (see the header comment): `finite m k`
denotes the decimal rational `m / 10 ^ k`, kept in the canonical form of
`canonDec` by every constructor used below, so that derived equality is
value equality, as for Rust's `f64` comparisons on finite values. -/
inductive F64 where
  | finite (num : Int) (denExp : Nat)
  | inf
  | negInf
  | nan
deriving DecidableEq, Inhabited

/-- Builds the canonical finite `F64` denoting `m / 10 ^ k`. -/
def F64.ofDec (m : Int) (k : Nat) : F64 :=
  let c := canonDec m k
  .finite c.1 c.2

/-- Whether an `F64` is a finite number. -/
def F64.isFinite : F64 → Bool
  | .finite _ _ => true
  | _ => false

/-- Strips one optional leading sign, returning whether it was `'-'`. -/
def stripSign : List Char → Bool × List Char
  | '+' :: r => (false, r)
  | '-' :: r => (true, r)
  | r => (false, r)

/-- Takes the longest prefix of decimal digits. -/
def takeDigits : List Char → List Char × List Char
  | [] => ([], [])
  | c :: rest =>
    if c.isDigit then
      let (d, r) := takeDigits rest
      (c :: d, r)
    else ([], c :: rest)

/-- Exact value of a parsed decimal number `intD . fracD e (negE)expD`, as a
(not yet canonical) pair mantissa / power-of-ten denominator exponent. -/
def ratOfParts (intD fracD : List Char) (negE : Bool) (expD : List Char) :
    Int × Nat :=
  let mant : Int := (digitsVal (intD ++ fracD) : Int)
  let e := digitsVal expD
  if negE then (mant, fracD.length + e)
  else if e ≤ fracD.length then (mant, fracD.length - e)
  else (mant * pow10 (e - fracD.length), 0)

/-- The `Number` production of Rust's `f64::from_str` grammar (after the sign):
`Count '.'? | Count '.' Count | '.' Count`, optionally followed by
`('e'|'E') Sign? Count`; anything else is rejected. -/
def parseNumberF64 (cs : List Char) : Option (Int × Nat) :=
  let (intD, r1) := takeDigits cs
  let (fracD, r2) :=
    match r1 with
    | '.' :: rest => takeDigits rest
    | _ => ([], r1)
  if intD = [] ∧ fracD = [] then none
  else
    match r2 with
    | [] => some (ratOfParts intD fracD false [])
    | e :: rest =>
      if e = 'e' ∨ e = 'E' then
        let (negE, rest2) := stripSign rest
        let (expD, r3) := takeDigits rest2
        if expD = [] ∨ r3 ≠ [] then none
        else some (ratOfParts intD fracD negE expD)
      else none

/-- Rust's `f64::from_str`: `Sign? ('inf' | 'infinity' | 'nan' | Number)`,
with the keywords matched case-insensitively.  (Exact-value model: a finite
`Number` is kept exactly; the claims never depend on rounding or on overflow
of astronomically large literals.) -/
def parseF64 (s : String) : Option F64 :=
  let (neg, rest) := stripSign s.data
  let lower := rest.map Char.toLower
  if lower = "inf".data ∨ lower = "infinity".data then
    some (if neg then F64.negInf else F64.inf)
  else if lower = "nan".data then some F64.nan
  else
    match parseNumberF64 rest with
    | some (m, k) => some (F64.ofDec (if neg then -m else m) k)
    | none => none

/-! ## `units/amount.rs` -/

/-- An amount of money (`struct Amount { amount: f64 }`). -/
structure Amount where
  amount : F64
deriving DecidableEq, Inhabited

/-- `Amount::euro`: wraps a value in euros, no validation. -/
def Amount.euro (amount : F64) : Amount := ⟨amount⟩

/-- `Amount::parse_euro`: parses the string as a float and wraps it. -/
def Amount.parse_euro (s : String) : Option Amount :=
  (parseF64 s).map Amount.euro

/-! ## `units/date.rs` -/

/-- The month of the year. -/
inductive Month where
  | January
  | February
  | March
  | April
  | May
  | June
  | July
  | August
  | September
  | October
  | November
  | December
deriving DecidableEq, Inhabited

/-- The French month name used by `impl Display for Month`. -/
def Month.display : Month → String
  | .January => "janvier"
  | .February => "février"
  | .March => "mars"
  | .April => "avril"
  | .May => "mai"
  | .June => "juin"
  | .July => "juillet"
  | .August => "août"
  | .September => "septembre"
  | .October => "octobre"
  | .November => "novembre"
  | .December => "décembre"

/-- `Month::from_number`: the corresponding variant for 1–12, an error
carrying the number otherwise. -/
def Month.from_number (number : Nat) : Except String Month :=
  match number with
  | 1 => .ok .January
  | 2 => .ok .February
  | 3 => .ok .March
  | 4 => .ok .April
  | 5 => .ok .May
  | 6 => .ok .June
  | 7 => .ok .July
  | 8 => .ok .August
  | 9 => .ok .September
  | 10 => .ok .October
  | 11 => .ok .November
  | 12 => .ok .December
  | _ => .error ("Month " ++ toString number ++ " does not exist")

/-- A date of the year (`struct Date { day: u8, month: Month, year: u16 }`). -/
structure Date where
  day : Nat
  month : Month
  year : Nat
deriving DecidableEq, Inhabited

/-- `Date::is_leap_year`. -/
def Date.is_leap_year (self : Date) : Bool :=
  self.year % 4 == 0 && self.year % 100 != 0 || self.year % 400 == 0

/-- `Date::nb_days_in_month`: days of `month` in the year of `self`. -/
def Date.nb_days_in_month (self : Date) (month : Month) : Nat :=
  match month with
  | .January | .March | .May | .July | .August | .October | .December => 31
  | .April | .June | .September | .November => 30
  | .February => if self.is_leap_year then 29 else 28

/-- `impl Display for Date`: `"{day} {month} {year}"` with the French
month name. -/
def Date.display (self : Date) : String :=
  toString self.day ++ " " ++ self.month.display ++ " " ++ toString self.year

instance : ToString Date := ⟨Date.display⟩

/-- The error message of `Date::new` when the day exceeds the month length. -/
def dayTooHighMsg (day : Nat) (month : Month) (year : Nat) : String :=
  "In the year " ++ toString year ++ ", the month " ++ month.display ++ " has "
    ++ toString ((Date.mk day month year).nb_days_in_month month)
    ++ " days. " ++ (Date.mk day month year).display ++ " does not exist"

/-- The error message of `Date::new` when the day is below 1. -/
def dayTooLowMsg (day : Nat) : String :=
  "Day " ++ toString day ++ " does not exist. Days start at 1."

/-- `Date::new`: builds a date, failing if it does not exist in the calendar. -/
def Date.new (day : Nat) (month : Month) (year : Nat) : Except String Date :=
  let date : Date := ⟨day, month, year⟩
  let max_day := date.nb_days_in_month month
  if day > max_day then .error (dayTooHighMsg day month year)
  else if day < 1 then .error (dayTooLowMsg day)
  else .ok date

/-- `Date::from_yyyy_mm_dd`: parses `yyyy sep mm sep dd`, checking each
component's exact byte width before numeric parsing, then calls `Date::new`. -/
def Date.from_yyyy_mm_dd (text : String) (sep : Char) : Option Date := do
  let split := splitChar sep text.data
  let day_str ← split[2]?
  if utf8Len day_str ≠ 2 then none
  else do
    let day ← parseU8 day_str
    let month_str ← split[1]?
    if utf8Len month_str ≠ 2 then none
    else do
      let month ← (Month.from_number (← parseU8 month_str)).toOption
      let year_str ← split[0]?
      if utf8Len year_str ≠ 4 then none
      else do
        let year ← parseU16 year_str
        (Date.new day month year).toOption

/-! ## `import.rs` -/

/-- A bank account movement (`struct BankLine`). -/
structure BankLine where
  date_op : Date
  date_val : Date
  label : String
  category : List String
  sender_reciever : String
  amount : Amount
  comment : String
  account_number : Nat
  account_label : String
  account_balance : Amount
deriving DecidableEq, Inhabited

/-- `BankLine::new`. -/
def BankLine.new (date_op date_val : Date) (label : String)
    (category : List String) (supplier_found : String) (amount : Amount)
    (comment : String) (account_number : Nat) (account_label : String)
    (account_balance : Amount) : BankLine :=
  ⟨date_op, date_val, label, category, supplier_found, amount, comment,
    account_number, account_label, account_balance⟩

/-- The per-record closure of `from_csv`: fetches each configured column and
applies the field parse functions, short-circuiting to `none` on any missing
column or failed parse. -/
def fromCsvRow (date_op_idx date_val_idx label_idx : Nat) (category_idx : List Nat)
    (supplyer_found_idx amount_idx comment_idx account_number_idx
      account_label_idx account_balance_idx : Nat)
    (dateP : String → Option Date) (amountP : String → Option Amount)
    (vec : List String) : Option BankLine := do
  let date_op ← dateP (← vec[date_op_idx]?)
  let date_val ← dateP (← vec[date_val_idx]?)
  let label ← vec[label_idx]?
  let category ← collectOption (category_idx.map (fun idx => vec[idx]?))
  let supplier_found ← vec[supplyer_found_idx]?
  let amount ← amountP (← vec[amount_idx]?)
  let comment ← vec[comment_idx]?
  let account_number ← parseU32 (← vec[account_number_idx]?)
  let account_label ← vec[account_label_idx]?
  let account_balance ← amountP (← vec[account_balance_idx]?)
  some (BankLine.new date_op date_val label category supplier_found amount
    comment account_number account_label account_balance)

/-- Tokenizer state machine of the csv reader (external collaborator, default
configuration): `inQ` is true inside a quoted field, `started` is true once the
current record has consumed any character (empty lines yield no record),
`field` and `fields` accumulate the current field and record in reverse. -/
def csvAux (sep : Char) (cs : List Char) (inQ started : Bool)
    (field : List Char) (fields : List String) : List (List String) :=
  match inQ, cs with
  | _, [] =>
    if started then [fields.reverse ++ [String.mk field.reverse]] else []
  | true, '\"' :: '\"' :: rest => csvAux sep rest true true ('\"' :: field) fields
  | true, '\"' :: rest => csvAux sep rest false true field fields
  | true, c :: rest => csvAux sep rest true true (c :: field) fields
  | false, '\r' :: '\n' :: rest =>
    (if started then [fields.reverse ++ [String.mk field.reverse]] else [])
      ++ csvAux sep rest false false [] []
  | false, '\n' :: rest =>
    (if started then [fields.reverse ++ [String.mk field.reverse]] else [])
      ++ csvAux sep rest false false [] []
  | false, '\r' :: rest =>
    (if started then [fields.reverse ++ [String.mk field.reverse]] else [])
      ++ csvAux sep rest false false [] []
  | false, c :: rest =>
    if c = sep then
      csvAux sep rest false true [] (String.mk field.reverse :: fields)
    else if c = '\"' ∧ field = [] then
      csvAux sep rest true true field fields
    else csvAux sep rest false true (c :: field) fields

/-- All raw records of the csv reader, before header handling. -/
def csvRawRecords (sep : Char) (input : String) : List (List String) :=
  csvAux sep input.data false false [] []

/-- The records yielded by `rdr.into_records().filter_map(Result::ok)`:
the first record is consumed as the header (default `has_headers = true`)
and records whose field count differs from the header's are errors, removed
by the `filter_map`. -/
def csvIntoRecords (sep : Char) (input : String) : List (List String) :=
  match csvRawRecords sep input with
  | [] => []
  | header :: rest => rest.filter (fun r => r.length == header.length)

/-- `from_csv`: parses a csv given a separator, the column index of each
field, and parse functions; returns the valid lines in input order. -/
def from_csv (input : String) (sep : Char)
    (date_op_idx date_val_idx label_idx : Nat) (category_idx : List Nat)
    (supplyer_found_idx amount_idx comment_idx account_number_idx
      account_label_idx account_balance_idx : Nat)
    (dateP : String → Option Date) (amountP : String → Option Amount) :
    List BankLine :=
  (csvIntoRecords sep input).filterMap
    (fromCsvRow date_op_idx date_val_idx label_idx category_idx
      supplyer_found_idx amount_idx comment_idx account_number_idx
      account_label_idx account_balance_idx dateP amountP)

/-- `from_boursobank_csv`: the Boursobank column layout and parsers bound to
`from_csv` (`s.replace(',', ".")` before the euro parse). -/
def from_boursobank_csv (input : String) : List BankLine :=
  from_csv input ';' 0 1 2 [4, 3] 5 6 7 8 9 10
    (fun s => Date.from_yyyy_mm_dd s '-')
    (fun s => Amount.parse_euro
      (String.mk (s.data.map (fun c => if c = ',' then '.' else c))))

/-! ## Helper lemmas -/

theorem strDataAppend (s t : String) : (s ++ t).data = s.data ++ t.data := by
  cases s
  cases t
  rfl

theorem isSome_bind {α β : Type} (o : Option α) (f : α → Option β) :
    (o.bind f).isSome = true ↔ ∃ a, o = some a ∧ (f a).isSome = true := by
  cases o <;> simp

theorem isSome_mbind {α β : Type} (o : Option α) (f : α → Option β) :
    ((o >>= f).isSome = true) ↔ ∃ a, o = some a ∧ (f a).isSome = true := by
  cases o <;> simp

theorem some_mbind {α β : Type} (a : α) (f : α → Option β) :
    (some a >>= f) = f a := rfl

theorem omap_some {α β : Type} (f : α → β) (a : α) :
    Option.map f (some a) = some (f a) := rfl

theorem isSome_map {α β : Type} (o : Option α) (f : α → β) :
    (o.map f).isSome = o.isSome := by
  cases o <;> rfl

theorem getq_isSome {α : Type} (l : List α) (i : Nat) :
    l[i]?.isSome = true ↔ i < l.length := by
  constructor
  · intro h
    rcases Option.isSome_iff_exists.mp h with ⟨a, ha⟩
    exact (List.getElem?_eq_some.mp ha).1
  · intro h
    simp [List.getElem?_eq_getElem h]

theorem isSome_of_eq_some {α : Type} {o : Option α} {a : α} (h : o = some a) :
    o.isSome = true := by
  rw [h]
  rfl

theorem lt_of_getq {α : Type} {l : List α} {i : Nat} {a : α}
    (h : l[i]? = some a) : i < l.length :=
  (getq_isSome l i).mp (isSome_of_eq_some h)

theorem getD_of_getq {α : Type} {l : List α} {i : Nat} {a : α} (d : α)
    (h : l[i]? = some a) : l.getD i d = a := by
  have hi : i < l.length := lt_of_getq h
  rw [List.getD_eq_getElem l d hi]
  rw [List.getElem?_eq_getElem hi] at h
  exact Option.some_inj.mp h

theorem collect_isSome (cat : List Nat) (vec : List String) :
    (collectOption (cat.map fun idx => vec[idx]?)).isSome = true
      ↔ ∀ i ∈ cat, i < vec.length := by
  induction cat with
  | nil => simp [collectOption]
  | cons a t ih =>
    simp only [List.map_cons, List.mem_cons]
    cases h : vec[a]? with
    | none =>
      simp only [collectOption, Option.isSome_none]
      constructor
      · intro hf
        cases hf
      · intro hall
        have : a < vec.length := hall a (Or.inl rfl)
        rw [← getq_isSome] at this
        rw [h] at this
        cases this
    | some x =>
      have ha : a < vec.length := by
        rw [← getq_isSome, h]
        rfl
      simp only [collectOption, isSome_map]
      rw [ih]
      constructor
      · intro hall
        rintro i (rfl | hi)
        · exact ha
        · exact hall i hi
      · intro hall i hi
        exact hall i (Or.inr hi)

theorem filterMap_eq_map_filter {α β : Type} [Inhabited β] (f : α → Option β)
    (l : List α) :
    l.filterMap f
      = (l.filter (fun a => (f a).isSome)).map (fun a => (f a).get!) := by
  induction l with
  | nil => rfl
  | cons a t ih =>
    cases h : f a <;>
      simp [List.filterMap_cons, List.filter_cons, h, ih, Option.get!]

/-! ## Claim theorems -/

/-- C3: `nb_days_in_month` returns 31 for January, March, May, July, August,
October and December, 30 for April, June, September and November, and for
February 29 iff the year is leap, where a year is leap iff it is divisible by
4 and not by 100, or divisible by 400; in particular 1900 is not leap, 2000
and 2024 are, 2025 is not. -/
theorem days_in_month_table (dt : Date) :
    (dt.nb_days_in_month .January = 31 ∧ dt.nb_days_in_month .March = 31 ∧
      dt.nb_days_in_month .May = 31 ∧ dt.nb_days_in_month .July = 31 ∧
      dt.nb_days_in_month .August = 31 ∧ dt.nb_days_in_month .October = 31 ∧
      dt.nb_days_in_month .December = 31)
    ∧ (dt.nb_days_in_month .April = 30 ∧ dt.nb_days_in_month .June = 30 ∧
      dt.nb_days_in_month .September = 30 ∧ dt.nb_days_in_month .November = 30)
    ∧ dt.nb_days_in_month .February
        = (if (dt.year % 4 = 0 ∧ dt.year % 100 ≠ 0) ∨ dt.year % 400 = 0
            then 29 else 28)
    ∧ (dt.is_leap_year = true
        ↔ ((dt.year % 4 = 0 ∧ dt.year % 100 ≠ 0) ∨ dt.year % 400 = 0))
    ∧ (Date.mk 1 .January 1900).is_leap_year = false
    ∧ (Date.mk 1 .January 2000).is_leap_year = true
    ∧ (Date.mk 1 .January 2024).is_leap_year = true
    ∧ (Date.mk 1 .January 2025).is_leap_year = false := by
  have hleap : dt.is_leap_year = true
      ↔ ((dt.year % 4 = 0 ∧ dt.year % 100 ≠ 0) ∨ dt.year % 400 = 0) := by
    simp [Date.is_leap_year, Bool.or_eq_true, Bool.and_eq_true, beq_iff_eq,
      bne_iff_ne]
  refine ⟨⟨rfl, rfl, rfl, rfl, rfl, rfl, rfl⟩, ⟨rfl, rfl, rfl, rfl⟩, ?_, hleap,
    by decide, by decide, by decide, by decide⟩
  simp only [Date.nb_days_in_month]
  by_cases h : (dt.year % 4 = 0 ∧ dt.year % 100 ≠ 0) ∨ dt.year % 400 = 0
  · rw [if_pos (hleap.mpr h), if_pos h]
  · rw [if_neg (fun hl => h (hleap.mp hl)), if_neg h]

/-- C7: `Month::from_number` succeeds exactly for 1..12, returning the
corresponding variant, and fails for every other representable input with an
error message carrying the offending number. -/
theorem month_from_number_spec (n : Nat) :
    (Month.from_number 1 = .ok .January ∧ Month.from_number 2 = .ok .February ∧
      Month.from_number 3 = .ok .March ∧ Month.from_number 4 = .ok .April ∧
      Month.from_number 5 = .ok .May ∧ Month.from_number 6 = .ok .June ∧
      Month.from_number 7 = .ok .July ∧ Month.from_number 8 = .ok .August ∧
      Month.from_number 9 = .ok .September ∧ Month.from_number 10 = .ok .October ∧
      Month.from_number 11 = .ok .November ∧ Month.from_number 12 = .ok .December)
    ∧ ((∃ m, Month.from_number n = .ok m) ↔ 1 ≤ n ∧ n ≤ 12)
    ∧ (¬(1 ≤ n ∧ n ≤ 12) →
        Month.from_number n
          = .error ("Month " ++ toString n ++ " does not exist")) := by
  have hfail : ¬(1 ≤ n ∧ n ≤ 12) →
      Month.from_number n
        = .error ("Month " ++ toString n ++ " does not exist") := by
    intro hn
    rcases Nat.lt_or_ge n 1 with h | h
    · have : n = 0 := by omega
      subst this
      rfl
    · have h13 : 13 ≤ n := by omega
      obtain ⟨k, rfl⟩ : ∃ k, n = k + 13 := ⟨n - 13, by omega⟩
      rfl
  refine ⟨⟨rfl, rfl, rfl, rfl, rfl, rfl, rfl, rfl, rfl, rfl, rfl, rfl⟩, ?_, hfail⟩
  constructor
  · rintro ⟨m, hm⟩
    by_contra hn
    rw [hfail hn] at hm
    cases hm
  · rintro ⟨h1, h2⟩
    interval_cases n <;> exact ⟨_, rfl⟩

/-- C7 witness: at the concrete out-of-range input 13, `from_number` fails
with the message carrying 13. -/
theorem month_from_number_spec_witness :
    ¬(1 ≤ 13 ∧ 13 ≤ 12)
    ∧ Month.from_number 13 = .error ("Month " ++ toString 13 ++ " does not exist") :=
  ⟨by decide, (month_from_number_spec 13).2.2 (by decide)⟩

/-- C2: `Date::new` succeeds iff `1 ≤ day ∧ day ≤ days_in_month(month, year)`,
and the two failure conditions are distinguishable: day exceeding the month
length yields one message, day below 1 a different one, and the two messages
are never equal. -/
theorem date_new_spec (d : Nat) (m : Month) (y : Nat) :
    (Date.new d m y = .ok ⟨d, m, y⟩
      ↔ 1 ≤ d ∧ d ≤ (Date.mk d m y).nb_days_in_month m)
    ∧ (d > (Date.mk d m y).nb_days_in_month m →
        Date.new d m y = .error (dayTooHighMsg d m y))
    ∧ (d = 0 → Date.new d m y = .error (dayTooLowMsg d))
    ∧ (∀ d2 m2 y2 d3, dayTooHighMsg d2 m2 y2 ≠ dayTooLowMsg d3) := by
  refine ⟨?_, ?_, ?_, ?_⟩
  · unfold Date.new
    by_cases h1 : d > (Date.mk d m y).nb_days_in_month m
    · rw [if_pos h1]
      constructor
      · intro h
        cases h
      · intro h
        omega
    · rw [if_neg h1]
      by_cases h2 : d < 1
      · rw [if_pos h2]
        constructor
        · intro h
          cases h
        · intro h
          omega
      · rw [if_neg h2]
        constructor
        · intro _
          exact ⟨by omega, by omega⟩
        · intro _
          rfl
  · intro h1
    unfold Date.new
    rw [if_pos h1]
  · intro h2
    subst h2
    unfold Date.new
    rw [if_neg (by omega), if_pos (by omega)]
  · intro d2 m2 y2 d3 heq
    have h1 : (dayTooHighMsg d2 m2 y2).data.head? = some 'I' := by
      simp only [dayTooHighMsg, strDataAppend, List.append_assoc]
      rfl
    have h2 : (dayTooLowMsg d3).data.head? = some 'D' := by
      simp only [dayTooLowMsg, strDataAppend, List.append_assoc]
      rfl
    rw [heq, h2] at h1
    cases h1

/-- C2 witness: at the concrete inputs, day 42 of May 2042 fails with the
too-high message, day 0 of January 2025 with the too-low message, and day 15
of September 2025 succeeds. -/
theorem date_new_spec_witness :
    Date.new 42 .May 2042 = .error (dayTooHighMsg 42 .May 2042)
    ∧ Date.new 0 .January 2025 = .error (dayTooLowMsg 0)
    ∧ Date.new 15 .September 2025 = .ok ⟨15, .September, 2025⟩ :=
  ⟨(date_new_spec 42 .May 2042).2.1 (by decide),
    (date_new_spec 0 .January 2025).2.2.1 rfl,
    (date_new_spec 15 .September 2025).1.mpr (by decide)⟩

/-- C5: under the Boursobank adapter, the reference two-data-row input yields
exactly one `BankLine` per data row; the first has `date_op` 26 August 2025,
label `FOO1`, category `["Bâr", "Bâr"]` (order per the configured indices
`[4, 3]`), amount −101.00 (comma translated to dot before parsing) and
account number 42. -/
theorem boursobank_end_to_end :
    from_boursobank_csv
        ("dateOp;dateVal;label;category;categoryParent;supplierFound;amount;comment;accountNum;accountLabel;accountbalance\n2025-08-26;2025-08-26;\"FOO1\";\"Bâr\";\"Bâr\";\"BAZ\";-101,00;;42;BoursoBank;1057.24\n2025-08-26;2025-08-26;\"FOO2\";\"Bär\";\"Bäär\";\"baz\";-12,50;;42;BoursoBank;1057.24")
      = [BankLine.new ⟨26, .August, 2025⟩ ⟨26, .August, 2025⟩ "FOO1"
          ["Bâr", "Bâr"] "BAZ" (Amount.euro (.finite (-101) 0)) "" 42
          "BoursoBank" (Amount.euro (.finite 105724 2)),
        BankLine.new ⟨26, .August, 2025⟩ ⟨26, .August, 2025⟩ "FOO2"
          ["Bäär", "Bär"] "baz" (Amount.euro (.finite (-125) 1)) "" 42
          "BoursoBank" (Amount.euro (.finite 105724 2))] := by
  decide

/-- C1: a row processed by the generic mapper yields a `BankLine` iff every
configured column index (including every category index and the
account-number index) is in bounds for the tokenized row, the date parse
function succeeds on both date fields, the amount parse function succeeds on
both amount fields, and the account-number field parses as an unsigned
integer; every failing row is skipped, and the output of `from_csv` is the
in-order image of exactly the surviving records — no reordering, no
deduplication. -/
theorem from_csv_row_validation (input : String) (sep : Char)
    (i_dop i_dval i_lab : Nat) (cat : List Nat)
    (i_sup i_amt i_com i_acc i_alab i_bal : Nat)
    (dp : String → Option Date) (ap : String → Option Amount)
    (vec : List String) :
    ((fromCsvRow i_dop i_dval i_lab cat i_sup i_amt i_com i_acc i_alab i_bal
        dp ap vec).isSome = true
      ↔ (∃ s, vec[i_dop]? = some s ∧ (dp s).isSome = true)
        ∧ (∃ s, vec[i_dval]? = some s ∧ (dp s).isSome = true)
        ∧ i_lab < vec.length
        ∧ (∀ i ∈ cat, i < vec.length)
        ∧ i_sup < vec.length
        ∧ (∃ s, vec[i_amt]? = some s ∧ (ap s).isSome = true)
        ∧ i_com < vec.length
        ∧ (∃ s, vec[i_acc]? = some s ∧ (parseU32 s).isSome = true)
        ∧ i_alab < vec.length
        ∧ (∃ s, vec[i_bal]? = some s ∧ (ap s).isSome = true))
    ∧ from_csv input sep i_dop i_dval i_lab cat i_sup i_amt i_com i_acc
        i_alab i_bal dp ap
      = ((csvIntoRecords sep input).filter
          (fun v => (fromCsvRow i_dop i_dval i_lab cat i_sup i_amt i_com
            i_acc i_alab i_bal dp ap v).isSome)).map
          (fun v => (fromCsvRow i_dop i_dval i_lab cat i_sup i_amt i_com
            i_acc i_alab i_bal dp ap v).get!) := by
  constructor
  · constructor
    · intro h
      simp only [fromCsvRow, isSome_mbind, Option.isSome_some, and_true] at h
      obtain ⟨s1, h1, d1, hd1, s2, h2, d2, hd2, lb, hlb, cc, hcc, sp, hsp,
        s3, h3, am, ham, cm, hcm, s4, h4, an, han, al, hal, s5, h5, bl, hbl⟩ := h
      exact ⟨⟨s1, h1, isSome_of_eq_some hd1⟩, ⟨s2, h2, isSome_of_eq_some hd2⟩,
        lt_of_getq hlb, (collect_isSome cat vec).mp (isSome_of_eq_some hcc),
        lt_of_getq hsp, ⟨s3, h3, isSome_of_eq_some ham⟩, lt_of_getq hcm,
        ⟨s4, h4, isSome_of_eq_some han⟩, lt_of_getq hal,
        ⟨s5, h5, isSome_of_eq_some hbl⟩⟩
    · rintro ⟨⟨s1, h1, hd1⟩, ⟨s2, h2, hd2⟩, hlb, hcat, hsp, ⟨s3, h3, ham⟩,
        hcm, ⟨s4, h4, han⟩, hal, ⟨s5, h5, hbl⟩⟩
      simp only [fromCsvRow, isSome_mbind, Option.isSome_some, and_true]
      obtain ⟨d1, hd1'⟩ := Option.isSome_iff_exists.mp hd1
      obtain ⟨d2, hd2'⟩ := Option.isSome_iff_exists.mp hd2
      obtain ⟨lb, hlb'⟩ := Option.isSome_iff_exists.mp ((getq_isSome _ _).mpr hlb)
      obtain ⟨cc, hcc'⟩ :=
        Option.isSome_iff_exists.mp ((collect_isSome cat vec).mpr hcat)
      obtain ⟨sp, hsp'⟩ := Option.isSome_iff_exists.mp ((getq_isSome _ _).mpr hsp)
      obtain ⟨am, ham'⟩ := Option.isSome_iff_exists.mp ham
      obtain ⟨cm, hcm'⟩ := Option.isSome_iff_exists.mp ((getq_isSome _ _).mpr hcm)
      obtain ⟨an, han'⟩ := Option.isSome_iff_exists.mp han
      obtain ⟨al, hal'⟩ := Option.isSome_iff_exists.mp ((getq_isSome _ _).mpr hal)
      obtain ⟨bl, hbl'⟩ := Option.isSome_iff_exists.mp hbl
      exact ⟨s1, h1, d1, hd1', s2, h2, d2, hd2', lb, hlb', cc, hcc', sp, hsp',
        s3, h3, am, ham', cm, hcm', s4, h4, an, han', al, hal', s5, h5, bl, hbl'⟩
  · unfold from_csv
    exact filterMap_eq_map_filter _ _

/-- C9: the import as a whole cannot fail: it is a total function into lists
of `BankLine`s, the empty input and an entirely malformed input both yield the
empty output, and every input yields at most one output line per csv record. -/
theorem import_never_fails :
    from_boursobank_csv "" = []
    ∧ from_boursobank_csv "garbage\nmore;;garbage\n;;;\nnot,a,csv" = []
    ∧ ∀ input : String,
        (from_boursobank_csv input).length ≤ (csvIntoRecords ';' input).length := by
  refine ⟨by decide, by decide, ?_⟩
  intro input
  unfold from_boursobank_csv from_csv
  exact List.length_filterMap_le _ _

/-- C4 counterexample: `"2025-09-15-00"` is not of the layout `YYYY-MM-DD`
(it has a fourth component), yet `from_yyyy_mm_dd` accepts it, refuting the
claim that a date is returned only for text in the strict layout. -/
theorem from_yyyy_mm_dd_extra_component :
    Date.from_yyyy_mm_dd "2025-09-15-00" '-' = some ⟨15, .September, 2025⟩ := by
  decide

/-- C4 (amended): a date is returned only when the first three separator
components have the exact byte widths 4 (year), 2 (month) and 2 (day) and
parse into a valid date — components beyond the third are ignored, so text
with extra trailing components can still be accepted; every failure yields
absence; the three cited examples behave as stated. -/
theorem from_yyyy_mm_dd_strict_widths (text : String) (sep : Char) (d : Date) :
    (Date.from_yyyy_mm_dd text sep = some d →
      3 ≤ (splitChar sep text.data).length
      ∧ utf8Len ((splitChar sep text.data).getD 0 []) = 4
      ∧ utf8Len ((splitChar sep text.data).getD 1 []) = 2
      ∧ utf8Len ((splitChar sep text.data).getD 2 []) = 2)
    ∧ Date.from_yyyy_mm_dd "2025-09-15" '-' = some ⟨15, .September, 2025⟩
    ∧ Date.from_yyyy_mm_dd "25-9-15" '-' = none
    ∧ Date.from_yyyy_mm_dd "2025-09-42" '-' = none := by
  refine ⟨?_, by decide, by decide, by decide⟩
  intro h
  simp only [Date.from_yyyy_mm_dd] at h
  cases h2 : (splitChar sep text.data)[2]? with
  | none => rw [h2] at h; cases h
  | some ds =>
    rw [h2] at h
    simp only [some_mbind] at h
    by_cases w2 : utf8Len ds ≠ 2
    · rw [if_pos w2] at h; cases h
    · rw [if_neg w2] at h
      cases h3 : parseU8 ds with
      | none => rw [h3] at h; cases h
      | some dayv =>
        rw [h3] at h
        simp only [some_mbind] at h
        cases h4 : (splitChar sep text.data)[1]? with
        | none => rw [h4] at h; cases h
        | some ms =>
          rw [h4] at h
          simp only [some_mbind] at h
          by_cases w1 : utf8Len ms ≠ 2
          · rw [if_pos w1] at h; cases h
          · rw [if_neg w1] at h
            cases h5 : parseU8 ms with
            | none => rw [h5] at h; cases h
            | some mn =>
              rw [h5] at h
              simp only [some_mbind] at h
              cases h6 : (Month.from_number mn).toOption with
              | none => rw [h6] at h; cases h
              | some mo =>
                rw [h6] at h
                simp only [some_mbind] at h
                cases h7 : (splitChar sep text.data)[0]? with
                | none => rw [h7] at h; cases h
                | some ys =>
                  rw [h7] at h
                  simp only [some_mbind] at h
                  by_cases w0 : utf8Len ys ≠ 4
                  · rw [if_pos w0] at h; cases h
                  · refine ⟨?_, ?_, ?_, ?_⟩
                    · exact lt_of_getq h2
                    · rw [getD_of_getq [] h7]; omega
                    · rw [getD_of_getq [] h4]; omega
                    · rw [getD_of_getq [] h2]; omega

/-- C4 witness: the amended width conditions, concluded from the theorem at
the concretely accepted input `"2025-09-15"`. -/
theorem from_yyyy_mm_dd_strict_widths_witness :
    3 ≤ (splitChar '-' "2025-09-15".data).length
    ∧ utf8Len ((splitChar '-' "2025-09-15".data).getD 0 []) = 4
    ∧ utf8Len ((splitChar '-' "2025-09-15".data).getD 1 []) = 2
    ∧ utf8Len ((splitChar '-' "2025-09-15".data).getD 2 []) = 2 :=
  (from_yyyy_mm_dd_strict_widths "2025-09-15" '-' ⟨15, .September, 2025⟩).1
    (by decide)

/-- C6 counterexample: the first record of an input is consumed as a header
even when it is a perfectly valid data row: the same row parses into a
`BankLine` when it is the second record, but as the first record it is absent
from the output, which keeps only the second row. -/
theorem first_row_eaten_counterexample :
    from_boursobank_csv
        ("2025-08-26;2025-08-26;FOO1;CatA;CatB;BAZ;-101,00;;42;BoursoBank;1057.24\n2025-08-27;2025-08-27;FOO2;CatC;CatD;QUX;-1,00;;42;BoursoBank;10.00")
      = [BankLine.new ⟨27, .August, 2025⟩ ⟨27, .August, 2025⟩ "FOO2"
          ["CatD", "CatC"] "QUX" (Amount.euro (.finite (-1) 0)) "" 42
          "BoursoBank" (Amount.euro (.finite 10 0))]
    ∧ from_boursobank_csv
        ("h;h;h;h;h;h;h;h;h;h;h\n2025-08-26;2025-08-26;FOO1;CatA;CatB;BAZ;-101,00;;42;BoursoBank;1057.24")
      = [BankLine.new ⟨26, .August, 2025⟩ ⟨26, .August, 2025⟩ "FOO1"
          ["CatB", "CatA"] "BAZ" (Amount.euro (.finite (-101) 0)) "" 42
          "BoursoBank" (Amount.euro (.finite 105724 2))] := by
  constructor <;> decide

/-- C6 (amended): the csv reader always consumes the first record as a header
and never yields it, valid or not: any input holding at most one record
produces an empty output, and only records after the first undergo the
per-row validation. -/
theorem first_record_consumed_as_header (input : String)
    (h : (csvRawRecords ';' input).length ≤ 1) :
    from_boursobank_csv input = [] := by
  unfold from_boursobank_csv from_csv csvIntoRecords
  cases hr : csvRawRecords ';' input with
  | nil => rfl
  | cons hd tl =>
    rw [hr] at h
    simp only [List.length_cons] at h
    have : tl = [] := List.length_eq_zero.mp (by omega)
    subst this
    rfl

/-- C6 witness: a single fully valid data row with no terminator is one raw
record, and importing it yields nothing. -/
theorem first_record_header_witness :
    (csvRawRecords ';'
        "2025-08-26;2025-08-26;FOO1;CatA;CatB;BAZ;-101,00;;42;BoursoBank;1057.24").length ≤ 1
    ∧ from_boursobank_csv
        "2025-08-26;2025-08-26;FOO1;CatA;CatB;BAZ;-101,00;;42;BoursoBank;1057.24"
      = [] :=
  ⟨by decide, first_record_consumed_as_header _ (by decide)⟩

/-- C8 counterexample: for the valid triple (15, September, 2025),
construction succeeds but re-parsing the `Display` rendering
(`"15 septembre 2025"`) yields absence, for the rendering's own separator
`' '` as well as for the `'-'` separator of the parsed format: the
construct-display-reparse round-trip fails. -/
theorem display_reparse_fails_counterexample :
    Date.new 15 .September 2025 = .ok ⟨15, .September, 2025⟩
    ∧ Date.from_yyyy_mm_dd ((Date.mk 15 .September 2025).display) ' ' = none
    ∧ Date.from_yyyy_mm_dd ((Date.mk 15 .September 2025).display) '-' = none := by
  refine ⟨rfl, by decide, by decide⟩

/-- C8 (amended): for every valid `(day, month, year)` with
`1 ≤ day ≤ days_in_month`, `Date::new` succeeds; but the `Display` rendering
is `"day <French month name> year"` and no French month name has the byte
width 2 that `from_string` demands of the month component, so the rendered
text is not re-parseable — e.g. re-parsing the rendering of 15 September 2025
yields absence with both `' '` and `'-'` as separator. -/
theorem date_new_valid_display_not_reparseable (d : Nat) (m : Month) (y : Nat) :
    (1 ≤ d → d ≤ (Date.mk d m y).nb_days_in_month m →
      Date.new d m y = .ok ⟨d, m, y⟩)
    ∧ (∀ mo : Month, utf8Len mo.display.data ≠ 2)
    ∧ Date.from_yyyy_mm_dd ((Date.mk 15 .September 2025).display) ' ' = none
    ∧ Date.from_yyyy_mm_dd ((Date.mk 15 .September 2025).display) '-' = none := by
  refine ⟨?_, ?_, by decide, by decide⟩
  · intro h1 h2
    unfold Date.new
    rw [if_neg (by omega), if_neg (by omega)]
  · intro mo
    cases mo <;> decide

/-- C8 witness: the amended theorem applied at the valid triple
(15, September, 2025). -/
theorem date_new_valid_witness :
    Date.new 15 .September 2025 = .ok ⟨15, .September, 2025⟩ :=
  (date_new_valid_display_not_reparseable 15 .September 2025).1
    (by decide) (by decide)

/-- Whether a string is, after an optional sign, one of the case-insensitive
special float literals accepted by Rust's float grammar. -/
def isSpecialFloatLit (s : String) : Prop :=
  (stripSign s.data).2.map Char.toLower = "inf".data
  ∨ (stripSign s.data).2.map Char.toLower = "infinity".data
  ∨ (stripSign s.data).2.map Char.toLower = "nan".data

instance (s : String) : Decidable (isSpecialFloatLit s) := by
  unfold isSpecialFloatLit
  infer_instance

/-- C10 counterexample: `parse_euro "inf"` succeeds and the resulting amount
is not finite, and `euro` wraps a non-finite value unchanged — finiteness is
not an invariant of `Amount`. -/
theorem parse_euro_inf_counterexample :
    Amount.parse_euro "inf" = some (Amount.euro F64.inf)
    ∧ (Amount.euro F64.inf).amount.isFinite = false := by
  refine ⟨by decide, by decide⟩

/-- C10 (amended): the `Amount` constructors enforce no finiteness: `euro`
wraps any value, including non-finite ones, without validation, and
`parse_euro` succeeds on the special literals `inf`/`infinity`/`nan`
(case-insensitive, optionally signed), in which case the produced amount is
not finite. -/
theorem amount_no_finiteness_invariant :
    (∀ v : F64, (Amount.euro v).amount = v)
    ∧ (∀ (s : String) (a : Amount), Amount.parse_euro s = some a →
        isSpecialFloatLit s → a.amount.isFinite = false) := by
  refine ⟨fun v => rfl, ?_⟩
  intro s a hp hs
  unfold Amount.parse_euro parseF64 at hp
  unfold isSpecialFloatLit at hs
  rcases hstrip : stripSign s.data with ⟨neg, rest⟩
  rw [hstrip] at hp hs
  simp only at hp hs
  rcases hs with hkey | hkey | hkey
  · rw [hkey] at hp
    rw [if_pos (by decide)] at hp
    simp only [omap_some] at hp
    cases neg <;>
      · rw [← Option.some.inj hp]
        rfl
  · rw [hkey] at hp
    rw [if_pos (by decide)] at hp
    simp only [omap_some] at hp
    cases neg <;>
      · rw [← Option.some.inj hp]
        rfl
  · rw [hkey] at hp
    rw [if_neg (by decide), if_pos (by decide)] at hp
    simp only [omap_some] at hp
    rw [← Option.some.inj hp]
    rfl

/-- C10 witness: the amended theorem applied at the concrete input `"NaN"`. -/
theorem amount_no_finiteness_witness :
    ∃ a, Amount.parse_euro "NaN" = some a ∧ a.amount.isFinite = false := by
  have h : Amount.parse_euro "NaN" = some (Amount.euro F64.nan) := by decide
  exact ⟨Amount.euro F64.nan, h,
    amount_no_finiteness_invariant.2 "NaN" _ h (by decide)⟩

end MoneyMonitor
